import Mathlib

/-!
Verification development for the TCGPlayer seller-helper scripts
(`inventory_sync.py`, `reconcile_inventory.py`, `upload_cards.py`).

The Python code is shallowly embedded: every page read (row label text,
input value, button count, visibility) is an input to a pure Lean
function, every page write (filling a quantity box, clicking a Match
button, clicking Save) is an emitted `PageAction`, and file contents are
passed in as values (`Except` models a `json.load` that may raise).
The definitions follow the control flow of the scripts line by line;
theorems at the end settle the specification claims.
-/

/-! ## Python string primitives

The scripts use `str.lower`, `str.replace`, `str.strip`, `str.isdigit`,
`int(...)` on digit strings, and the `in` substring test.  They are
re-implemented here over `List Char` by structural recursion so that the
kernel can evaluate them on concrete inputs (ASCII suffices for the
label vocabulary the scripts handle). -/

/-- Python `pat in s` on character lists: `pat` occurs contiguously in `s`.
The empty pattern is contained in every string, as in Python. -/
def isSubstr (pat : List Char) : List Char → Bool
  | [] => pat.isEmpty
  | c :: rest => pat.isPrefixOf (c :: rest) || isSubstr pat rest

/-- Worker for `removeAll`: fuel-driven so the recursion is structural.
Scans left to right; at each position a leading occurrence of `pat` is
dropped (non-overlapping, as Python `str.replace(pat, "")`). -/
def removeAllFuel (pat : List Char) : Nat → List Char → List Char
  | 0, rest => rest
  | _ + 1, [] => []
  | fuel + 1, c :: rest =>
    if pat ≠ [] ∧ pat.isPrefixOf (c :: rest) then
      removeAllFuel pat fuel (rest.drop (pat.length - 1))
    else c :: removeAllFuel pat fuel rest

/-- Python `s.replace(pat, "")`: delete every occurrence of `pat`. -/
def removeAll (pat s : List Char) : List Char := removeAllFuel pat s.length s

/-- The whitespace set of Python `str.strip()` (ASCII part). -/
def pySpace (c : Char) : Bool :=
  c == ' ' || c == '\t' || c == '\n' || c == '\r' || c == '\x0b' || c == '\x0c'

/-- Python `s.strip()`: drop whitespace from both ends. -/
def pyStrip (s : List Char) : List Char :=
  ((s.dropWhile pySpace).reverse.dropWhile pySpace).reverse

/-- Python `s.lower()` (ASCII). -/
def pyLower (s : String) : String := ⟨s.data.map Char.toLower⟩

/-- Python `pat in s` on strings. -/
def pyIn (pat s : String) : Bool := isSubstr pat.data s.data

/-- Python `s.isdigit()` (ASCII digits). -/
def pyIsDigits (s : String) : Bool := !s.data.isEmpty && s.data.all Char.isDigit

/-- Decimal value of a digit string. -/
def digitsVal (cs : List Char) : Nat :=
  cs.foldl (fun n c => n * 10 + (c.toNat - 48)) 0

/-- Python `int(s) if s.isdigit() else 0`, the guard pattern both scripts
use when reading a quantity input. -/
def pyIntIfDigits (s : String) : Nat :=
  if pyIsDigits s then digitsVal s.data else 0

/-- Python `dict.get`-style lookup where later assignments overwrite
earlier ones (the scripts build `prices[row_text] = ...` in a loop, so
the last row with a given label wins). -/
def pyDictGet {α : Type} (entries : List (String × α)) (k : String) : Option α :=
  (entries.reverse.find? (fun e => e.1 == k)).map (·.2)

/-! ## VariantMatcher (`reconcile_inventory.py` lines 246-306)

For each candidate row the script reads the first cell's text and
applies: foil status (substring test for "foil" on the lowered text)
must match the target exactly; then the target with "foil" removed and
stripped must be a substring of the row label treated the same way.
The first row passing both tests is the match. -/

/-- `"foil" in s.lower()` — the foil flag of a variant label. -/
def containsFoil (s : String) : Bool := pyIn "foil" (pyLower s)

/-- `s.lower().replace("foil", "").strip()` — the base-condition text. -/
def stripFoil (s : String) : String := ⟨pyStrip (removeAll "foil".data (pyLower s).data)⟩

/-- The per-row acceptance test of the variant matcher: foil status equal
and stripped target contained in the stripped label. -/
def rowMatchesVariant (targetVariant label : String) : Bool :=
  (containsFoil targetVariant == containsFoil label) &&
    pyIn (stripFoil targetVariant) (stripFoil label)

/-- The matcher over a page: first label (in row-encounter order)
accepted by `rowMatchesVariant`; `none` models NotFound. -/
def matchVariant (targetVariant : String) (labels : List String) : Option String :=
  labels.find? (rowMatchesVariant targetVariant)

/-- `List.find?` returns the first element satisfying the predicate:
the element satisfies it and every earlier position fails it. -/
theorem find?_first {α : Type} (p : α → Bool) :
    ∀ (xs : List α) (a : α), xs.find? p = some a →
      p a = true ∧ ∃ i, xs.get? i = some a ∧
        ∀ j, j < i → ∀ b, xs.get? j = some b → p b = false := by
  intro xs
  induction xs with
  | nil => intro a h; simp [List.find?] at h
  | cons x xs ih =>
    intro a h
    by_cases hp : p x = true
    · rw [List.find?_cons_of_pos _ hp] at h
      injection h with h
      subst h
      exact ⟨hp, 0, rfl, fun j hj => by omega⟩
    · rw [List.find?_cons_of_neg _ (by simpa using hp)] at h
      obtain ⟨hpa, i, hi, hfirst⟩ := ih a h
      refine ⟨hpa, i + 1, by simpa using hi, ?_⟩
      intro j hj b hb
      match j with
      | 0 =>
        simp only [List.get?_cons_zero, Option.some_inj] at hb
        subst hb
        simpa using hp
      | jv + 1 =>
        exact hfirst jv (by omega) b (by simpa using hb)

/-! ## Identifier cache and the Scryfall resolvers
(`reconcile_inventory.py` lines 29-60, `upload_cards.py` lines 36-61)

`tcg_id_cache.json` is a JSON object; its values are whatever the
scripts assign, so they are modelled as JSON scalars (`upload_cards.py`
stores the raw integer or `null`, `reconcile_inventory.py` stores the
stringified integer).  The HTTP call is an oracle value: status 200 with
an optional `tcgplayer_id` field, a non-200 status, or a raised
exception. -/

/-- A JSON scalar as stored in the id cache. -/
inductive JVal
  | null
  | num (n : Nat)
  | str (s : String)
deriving DecidableEq, Repr

/-- The id cache, a JSON object.  Assignment prepends, lookup takes the
most recent binding — Python dict overwrite semantics. -/
abbrev Cache := List (String × JVal)

/-- Python `key in cache` / `cache[key]` combined. -/
def cacheLookup (c : Cache) (k : String) : Option JVal :=
  (c.find? (fun e => e.1 == k)).map (·.2)

/-- Python `cache[key] = v`. -/
def cacheInsert (c : Cache) (k : String) (v : JVal) : Cache := (k, v) :: c

/-- Outcome of `requests.get` on the Scryfall card endpoint. -/
inductive ScryResp
  | ok (tcgplayerId : Option Nat)
  | httpError
  | exn
deriving DecidableEq, Repr

/-- `reconcile_inventory.get_tcgplayer_id_from_scryfall`: cache hit
returns the stored value; on a 200 response the `tcgplayer_id` field is
stringified, cached and returned only when present (truthy); every
other outcome returns `None` (here `JVal.null`) without touching the
cache. -/
def get_tcgplayer_id_from_scryfall (resp : ScryResp) (scryfallId : String) (cache : Cache) :
    JVal × Cache :=
  match cacheLookup cache scryfallId with
  | some v => (v, cache)
  | none =>
    match resp with
    | .ok (some tid) =>
      (.str (Nat.repr tid), cacheInsert cache scryfallId (.str (Nat.repr tid)))
    | .ok none => (.null, cache)
    | .httpError => (.null, cache)
    | .exn => (.null, cache)

/-- `upload_cards.get_tcgplayer_id`: cache hit returns the stored value;
on a 200 response the raw `tcgplayer_id` field — `null` when the field
is absent — is cached unconditionally and returned; non-200 and
exceptions return `None` without caching. -/
def get_tcgplayer_id (resp : ScryResp) (scryfallId : String) (cache : Cache) :
    JVal × Cache :=
  match cacheLookup cache scryfallId with
  | some v => (v, cache)
  | none =>
    match resp with
    | .ok tidOpt =>
      let v := match tidOpt with
        | some tid => JVal.num tid
        | none => JVal.null
      (v, cacheInsert cache scryfallId v)
    | .httpError => (.null, cache)
    | .exn => (.null, cache)

/-! ## The resolution chain (`reconcile_inventory.py` lines 192-219)

The three lookup strategies are capability parameters returning the
overall outcome of the corresponding Python function (`none` models a
falsy result, i.e. failure swallowed by that function). -/

/-- Which resolution strategies a record's processing invoked. -/
inductive Strategy
  | scryfall
  | pokemonApi
  | catalogSearch
deriving DecidableEq, Repr

/-- The external lookup capabilities consulted by the chain. -/
structure ResolveEnv where
  scryfall : String → Option String
  pokemonApi : String → String → Option String
  catalogSearch : String → Option String

/-- The per-record id resolution of `reconcile_inventory.main`:
a present `Product ID`/`TCGPlayer ID` is used directly; otherwise the
Scryfall strategy is tried when a Scryfall id is present, `elif` the
Pokemon API when the category names Pokemon; if still unresolved and
the name is usable, the catalog-search fallback runs.  Returns the
resolved id (if any) and the strategies that were invoked. -/
def resolvePid (env : ResolveEnv) (pidField scryId : Option String)
    (name category setName : String) : Option String × List Strategy :=
  match pidField with
  | some p => (some p, [])
  | none =>
    let step1 : Option String × List Strategy :=
      match scryId with
      | some sid => (env.scryfall sid, [Strategy.scryfall])
      | none =>
        if category == "Pokemon" || pyIn "Pokemon" category then
          (env.pokemonApi name setName, [Strategy.pokemonApi])
        else (none, [])
    match step1.1 with
    | some p => (some p, step1.2)
    | none =>
      if name != "" && name != "Unknown" then
        (env.catalogSearch name, step1.2 ++ [Strategy.catalogSearch])
      else (none, step1.2)

/-! ## Cache and progress loading (`reconcile_inventory.py` lines 29-33,
`inventory_sync.py` lines 51-78)

A file on disk is `none` (absent) or `some` parse outcome; a parse
outcome is `Except.error` when `json.load` raises. -/

/-- `load_cache` (identical in `reconcile_inventory.py` and
`upload_cards.py`): an absent file yields the empty cache; an existing
file is parsed with **no** exception handler, so a parse error
propagates to the caller and aborts the run. -/
def load_cache (file : Option (Except String Cache)) : Except String Cache :=
  match file with
  | none => .ok []
  | some parsed => parsed

/-- One entry of `harvest_latest.json`: the legacy format is a bare id
string, the current format a dict of id plus catalog metadata. -/
inductive HarvestItem
  | strId (id : String)
  | dict (id name setName category rarity number : String)
deriving DecidableEq, Repr

/-- The identifier a harvest entry denotes (phase 2 of
`inventory_sync.py` destructures both formats this way). -/
def harvestId : HarvestItem → String
  | .strId s => s
  | .dict i _ _ _ _ _ => i

/-- The fields of `progress_latest.json` that resume reads. -/
structure ProgressData where
  lastProcessedId : String
  reportFile : String
deriving DecidableEq, Repr

/-- Python `last_id in product_ids` followed by `.index(last_id)`:
membership by `==`, under which a string equals a legacy string entry
with the same content but never equals a dict entry. -/
def pyMemIndex (lastId : String) (items : List HarvestItem) : Option Nat :=
  items.findIdx? (fun it =>
    match it with
    | .strId s => s == lastId
    | .dict .. => false)

/-- What `--resume` initialization decides. -/
structure ResumeOutcome where
  resumed : Bool
  startIndex : Nat
  reportFile : String
  harvest : List HarvestItem
deriving DecidableEq, Repr

/-- The fresh-start outcome (phase 1 will re-harvest and open a new
report file). -/
def freshOutcome : ResumeOutcome :=
  { resumed := false, startIndex := 0, reportFile := "", harvest := [] }

/-- `inventory_sync.main` resume logic: both files must exist and parse
(the `try` block catches parse errors and falls back to a fresh run);
the checkpoint id is looked up in the harvest list — found at index `k`
resumes at `k + 1`, not found restarts at index 0 while keeping the
resumed report file. -/
def resumeInit (progressFile : Option (Except String ProgressData))
    (harvestFile : Option (Except String (List HarvestItem))) : ResumeOutcome :=
  match progressFile, harvestFile with
  | some pr, some hr =>
    match pr, hr with
    | .ok p, .ok items =>
      match pyMemIndex p.lastProcessedId items with
      | some k =>
        { resumed := true, startIndex := k + 1, reportFile := p.reportFile, harvest := items }
      | none =>
        { resumed := true, startIndex := 0, reportFile := p.reportFile, harvest := items }
    | _, _ => freshOutcome
  | _, _ => freshOutcome

/-! ## Page actions and report rows -/

/-- A mutating action performed on the listing-management page. -/
inductive PageAction
  | clickMatch (rowLabel : String)
  | fillQty (rowLabel : String) (value : String)
  | clickSave
deriving DecidableEq, Repr

/-- Status written into a report row.  `inventory_sync.py` serializes
`updated` as `"Updated"` and `dryRun` as `"Dry Run"` (the spec's data
model names them `Updated` / `DryRun`). -/
inductive RowStatus
  | updated
  | dryRun
deriving DecidableEq, Repr

/-- One row of the CSV report of `inventory_sync.py`. -/
structure ReportRow where
  productId : String
  name : String
  setName : String
  category : String
  number : String
  rarity : String
  variant : String
  qty : Nat
  oldPrice : String
  newPrice : String
  status : RowStatus
deriving DecidableEq, Repr

/-- The overwritten content of `progress_latest.json`. -/
structure ProgressState where
  lastProcessedId : String
  reportFile : String
  timestamp : String
deriving DecidableEq, Repr

/-! ## The sync engine, phase 2 (`inventory_sync.py` lines 207-426)

Every page observation is a field of the input; the post-click value of
the price input (`postClickPriceVal`) is the only observation that can
exist solely because a previous mutation happened. -/

/-- What phase 2 observes about one variant row of a product page. -/
structure SyncRow where
  variantName : String
  hasInput : Bool
  inputVisible : Bool
  qtyVal : String
  matchBtnCount : Nat
  priceVisible : Bool
  oldPriceVal : String
  postClickPriceVal : String
deriving DecidableEq, Repr

/-- The catalog metadata carried for one product (from the harvest
dict, already destructured). -/
structure SyncMeta where
  pid : String
  name : String
  setName : String
  category : String
  rarity : String
  number : String
deriving DecidableEq, Repr

/-- One product to process: metadata plus what the page session
observes for it.  `navOk` is whether any of the 3 `page.goto` attempts
succeeded; `tableCheck` is the outcome of the table-visibility probe
(`none` models the probe raising, which the bare `except: pass`
swallows so processing proceeds). -/
structure SyncItem where
  meta : SyncMeta
  navOk : Bool
  tableCheck : Option Bool
  rows : List SyncRow
  saveVisible : Bool
  ts : String
deriving DecidableEq, Repr

/-- Row loop body (`inventory_sync.py` lines 338-411): skip rows without
a visible quantity input or with a non-positive/non-numeric quantity;
with at least 3 Match buttons, read the old price, in live mode click
the third Match button and read the new price (status `updated`), in
dry-run mode leave the page alone (status `dryRun`); rows with fewer
Match buttons produce no report row. -/
def processSyncRow (dryRun : Bool) (meta : SyncMeta) (r : SyncRow) :
    Option ReportRow × List PageAction :=
  if !r.hasInput then (none, [])
  else if !r.inputVisible then (none, [])
  else if !pyIsDigits r.qtyVal || pyIntIfDigits r.qtyVal == 0 then (none, [])
  else if r.matchBtnCount ≥ 3 then
    let oldPrice := if r.priceVisible then r.oldPriceVal else "N/A"
    let acts := if !dryRun then [PageAction.clickMatch r.variantName] else []
    let newPrice := if !dryRun then (if r.priceVisible then r.postClickPriceVal else "N/A") else "N/A"
    let status := if !dryRun then RowStatus.updated else RowStatus.dryRun
    (some { productId := meta.pid, name := meta.name, setName := meta.setName,
            category := meta.category, number := meta.number, rarity := meta.rarity,
            variant := r.variantName, qty := pyIntIfDigits r.qtyVal,
            oldPrice := oldPrice, newPrice := newPrice, status := status }, acts)
  else (none, [])

/-- Result of processing one product in phase 2. -/
structure ItemResult where
  report : List ReportRow
  actions : List PageAction
  progressWrite : Option ProgressState
deriving DecidableEq, Repr

/-- Per-product body of the phase-2 loop: exhausted navigation retries
`continue` to the next product (skipping the progress write), as does a
visibly absent table; otherwise every row is processed, `changes_made`
is set exactly when a Match click happened, Save is clicked only when
changes were made in live mode and the Save button is visible, and the
progress file is overwritten with this product's id. -/
def processSyncItem (dryRun : Bool) (reportFile : String) (item : SyncItem) : ItemResult :=
  if !item.navOk then { report := [], actions := [], progressWrite := none }
  else if item.tableCheck == some false then { report := [], actions := [], progressWrite := none }
  else
    let rowResults := item.rows.map (processSyncRow dryRun item.meta)
    let report := rowResults.filterMap (·.1)
    let rowActs := (rowResults.map (·.2)).flatten
    let changed := !rowActs.isEmpty
    let acts := rowActs ++
      (if changed && !dryRun && item.saveVisible then [PageAction.clickSave] else [])
    { report := report, actions := acts,
      progressWrite := some ⟨item.meta.pid, reportFile, item.ts⟩ }

/-- Accumulated outcome of a phase-2 run. -/
structure RunResult where
  report : List ReportRow
  actions : List PageAction
  progress : Option ProgressState
deriving DecidableEq, Repr

/-- Phase-2 loop from a given position: concatenates report rows and
page actions; each written progress state overwrites the previous one. -/
def runSyncFrom (dryRun : Bool) (reportFile : String) :
    List SyncItem → Option ProgressState → RunResult
  | [], prog => { report := [], actions := [], progress := prog }
  | item :: rest, prog =>
    let res := processSyncItem dryRun reportFile item
    let prog1 := match res.progressWrite with
      | some p => some p
      | none => prog
    let tail := runSyncFrom dryRun reportFile rest prog1
    { report := res.report ++ tail.report,
      actions := res.actions ++ tail.actions,
      progress := tail.progress }

/-- Phase 2 of `inventory_sync.main`: process the harvested products
from `startIndex` on. -/
def runSync (dryRun : Bool) (reportFile : String) (startIndex : Nat)
    (items : List SyncItem) (progress0 : Option ProgressState) : RunResult :=
  runSyncFrom dryRun reportFile (items.drop startIndex) progress0

/-- Blank out the one observation that only a live mutation can
influence: the post-click price value. -/
def eraseSyncRow (r : SyncRow) : SyncRow := { r with postClickPriceVal := "" }

/-- Lift `eraseSyncRow` to a product. -/
def eraseSyncItem (item : SyncItem) : SyncItem :=
  { item with rows := item.rows.map eraseSyncRow }

/-! ## The reconcile engine (`reconcile_inventory.py` lines 154-318) -/

/-- What the reconcile loop observes about one variant row. -/
structure ReconRow where
  label : String
  hasInput : Bool
  qtyVal : String
  matchBtnCount : Nat
deriving DecidableEq, Repr

/-- Processing of the matched row (`reconcile_inventory.py` lines
273-299): read the current quantity; on a mismatch, fill the quantity
input with `str(target_qty)` in live mode; then, independently, click a
Match button (the third when at least three exist, else the last) in
live mode.  Returns the actions and the `changes_made` flag (set only
by live-mode mutations). -/
def matchedRowStep (dryRun : Bool) (targetQty : Nat) (r : ReconRow) :
    List PageAction × Bool :=
  let current := pyIntIfDigits r.qtyVal
  let fills := if (current != targetQty) && !dryRun then
      [PageAction.fillQty r.label (Nat.repr targetQty)]
    else []
  let clicks := if decide (r.matchBtnCount ≥ 1) && !dryRun then
      [PageAction.clickMatch r.label]
    else []
  (fills ++ clicks, ((current != targetQty) && !dryRun) || (decide (r.matchBtnCount ≥ 1) && !dryRun))

/-- The row loop (`reconcile_inventory.py` lines 246-303): rows failing
the variant test are skipped; a matching row without a quantity input
sets `target_row_found` but `continue`s; a matching row with an input
is processed by `matchedRowStep` and the loop `break`s.  Returns
(actions, `changes_made`, `target_row_found`). -/
def reconLoop (dryRun : Bool) (targetVariant : String) (targetQty : Nat) :
    List ReconRow → Bool → List PageAction × Bool × Bool
  | [], found => ([], false, found)
  | r :: rest, found =>
    if rowMatchesVariant targetVariant r.label then
      if r.hasInput then
        let step := matchedRowStep dryRun targetQty r
        (step.1, step.2, true)
      else reconLoop dryRun targetVariant targetQty rest true
    else reconLoop dryRun targetVariant targetQty rest found

/-- One master-CSV record together with what the page session observes
for it. -/
structure ReconRecord where
  pidField : Option String
  scryId : Option String
  name : String
  category : String
  setName : String
  targetQty : Nat
  variant : String
  navOk : Bool
  rows : List ReconRow
  saveVisible : Bool

/-- Outcome of processing one record of the reconcile loop. -/
structure ReconResult where
  resolvedPid : Option String
  strategiesUsed : List Strategy
  skippedNoPid : Bool
  navFailed : Bool
  warnedNoRow : Bool
  actions : List PageAction
deriving DecidableEq, Repr

/-- Per-record body of `reconcile_inventory.main`: resolve the id
(skip with a warning when unresolvable), navigate (skip on failure),
run the row loop, warn when no variant row matched, and click Save only
when live-mode changes were made and the button is visible. -/
def processReconRecord (dryRun : Bool) (env : ResolveEnv) (rcd : ReconRecord) : ReconResult :=
  let resolved := resolvePid env rcd.pidField rcd.scryId rcd.name rcd.category rcd.setName
  match resolved.1 with
  | none =>
    { resolvedPid := none, strategiesUsed := resolved.2, skippedNoPid := true,
      navFailed := false, warnedNoRow := false, actions := [] }
  | some p =>
    if !rcd.navOk then
      { resolvedPid := some p, strategiesUsed := resolved.2, skippedNoPid := false,
        navFailed := true, warnedNoRow := false, actions := [] }
    else
      let loopRes := reconLoop dryRun rcd.variant rcd.targetQty rcd.rows false
      let acts := loopRes.1 ++
        (if loopRes.2.1 && !dryRun && rcd.saveVisible then [PageAction.clickSave] else [])
      { resolvedPid := some p, strategiesUsed := resolved.2, skippedNoPid := false,
        navFailed := false, warnedNoRow := !loopRes.2.2, actions := acts }

/-- The whole reconcile batch: records are processed strictly in
sequence and independently; no per-record failure stops the batch. -/
def runRecon (dryRun : Bool) (env : ResolveEnv) (records : List ReconRecord) :
    List ReconResult :=
  records.map (processReconRecord dryRun env)

/-! ## The upload engine (`upload_cards.py` lines 132-337) -/

/-- The condition-code table of `upload_cards.py`. -/
def CONDITION_MAP : List (String × String) :=
  [("near_mint", "Near Mint"), ("lightly_played", "Lightly Played"),
   ("moderately_played", "Moderately Played"), ("heavily_played", "Heavily Played"),
   ("damaged", "Damaged")]

/-- What `process_card` observes about one variant row.  `labelOk`
models whether reading the first cell succeeded (a failed read makes
both loops `continue`).  `priceVal` is the market-price cell parsed as
a decimal (`0` when the text holds no parsable `$` amount); the
machine-float arithmetic of the script is modelled over `ℚ`. -/
structure UploadRow where
  label : String
  labelOk : Bool
  qtyVal : String
  matchBtnCount : Nat
  priceVal : ℚ
deriving DecidableEq, Repr

/-- Outcome of the pricing-anomaly block. -/
structure AnomalyOutcome where
  targetText : String
  flagged : Bool
  promptShown : Bool
  conditionFinal : String
deriving DecidableEq, Repr

/-- The pricing-anomaly check (`upload_cards.py` lines 243-269): only
when listing as "Near Mint" and both the Near-Mint and Lightly-Played
keys (same foil suffix) are present in the harvested price dict and the
Lightly-Played price is strictly higher, the anomaly alert is printed;
the interactive retarget prompt appears only in live mode, and an
accepted prompt retargets the update to the Lightly-Played row. -/
def anomalyCheck (dryRun userAccepts : Bool) (condition : String) (isFoil : Bool)
    (prices : List (String × ℚ)) (targetText0 : String) : AnomalyOutcome :=
  let suffix := if isFoil then " Foil" else ""
  let nmKey := "Near Mint" ++ suffix
  let lpKey := "Lightly Played" ++ suffix
  if condition == "Near Mint" then
    match pyDictGet prices nmKey, pyDictGet prices lpKey with
    | some nmPrice, some lpPrice =>
      if lpPrice > nmPrice then
        if !dryRun then
          if userAccepts then
            { targetText := lpKey, flagged := true, promptShown := true,
              conditionFinal := "Lightly Played" }
          else
            { targetText := targetText0, flagged := true, promptShown := true,
              conditionFinal := condition }
        else
          { targetText := targetText0, flagged := true, promptShown := false,
            conditionFinal := condition }
      else
        { targetText := targetText0, flagged := false, promptShown := false,
          conditionFinal := condition }
    | _, _ =>
      { targetText := targetText0, flagged := false, promptShown := false,
        conditionFinal := condition }
  else
    { targetText := targetText0, flagged := false, promptShown := false,
      conditionFinal := condition }

/-- Second row loop of `process_card` (lines 273-318): for every row
whose label read succeeds, a Match button is clicked in live mode when
the row has stock or is the target (third button when at least three,
else the last); the target row additionally gets its quantity input
filled with current + CSV quantity in live mode.  Returns the actions
and whether this row is the target. -/
def uploadRowStep (dryRun : Bool) (targetText : String) (qtyToAdd : Nat) (r : UploadRow) :
    List PageAction × Bool :=
  if !r.labelOk then ([], false)
  else
    let isTarget := r.label == targetText
    let current := pyIntIfDigits r.qtyVal
    let clicks := if (decide (current > 0) || isTarget) && decide (r.matchBtnCount ≥ 1) && !dryRun then
        [PageAction.clickMatch r.label]
      else []
    let fills := if isTarget && !dryRun then
        [PageAction.fillQty r.label (Nat.repr (current + qtyToAdd))]
      else []
    (clicks ++ fills, isTarget)

/-- Outcome of `process_card` for one card. -/
structure UploadOutcome where
  targetText : String
  flagged : Bool
  promptShown : Bool
  targetFound : Bool
  warnedNoRow : Bool
  actions : List PageAction
deriving DecidableEq, Repr

/-- The part of `process_card` after the anomaly check (lines 273-337):
process every row, and — only when the target row was found — click
Save in live mode when the button is visible.  An absent target row
just logs a warning and returns without saving. -/
def uploadFinish (dryRun : Bool) (a : AnomalyOutcome) (qty : Nat)
    (rows : List UploadRow) (saveVisible : Bool) : UploadOutcome :=
  let stepResults := rows.map (uploadRowStep dryRun a.targetText qty)
  let acts := (stepResults.map (·.1)).flatten
  let found := stepResults.any (·.2)
  if !found then
    { targetText := a.targetText, flagged := a.flagged, promptShown := a.promptShown,
      targetFound := false, warnedNoRow := true, actions := acts }
  else
    { targetText := a.targetText, flagged := a.flagged, promptShown := a.promptShown,
      targetFound := true, warnedNoRow := false,
      actions := acts ++ (if !dryRun && saveVisible then [PageAction.clickSave] else []) }

/-- `upload_cards.process_card`: map the CSV condition code (defaulting
to "Near Mint"), detect foil, build the target label, harvest the price
dict from all readable rows, run the anomaly check (possibly
retargeting), then run the row-update loop and save step. -/
def process_card (dryRun userAccepts : Bool) (conditionRaw foilRaw : String) (qty : Nat)
    (rows : List UploadRow) (saveVisible : Bool) : UploadOutcome :=
  let condition := (pyDictGet CONDITION_MAP conditionRaw).getD "Near Mint"
  let isFoil := pyLower foilRaw == "foil"
  let targetText0 := if isFoil then condition ++ " Foil" else condition
  let prices := (rows.filter (·.labelOk)).map (fun r => (r.label, r.priceVal))
  let a := anomalyCheck dryRun userAccepts condition isFoil prices targetText0
  uploadFinish dryRun a qty rows saveVisible

/-! ## Claim theorems -/

/-- C2: the variant matcher selects a row only when its foil status
equals the target's; among rows it selects the first, in encounter
order, whose lower-cased, foil-stripped, trimmed label contains the
identically normalized target as a substring; with no qualifying row it
returns NotFound — in particular target "Near Mint" against the single
row "Near Mint Foil" returns NotFound. -/
theorem variantMatcher_C2 :
    (∀ (t : String) (labels : List String) (l : String),
      matchVariant t labels = some l →
        containsFoil l = containsFoil t ∧
        pyIn (stripFoil t) (stripFoil l) = true ∧
        ∃ i, labels.get? i = some l ∧
          ∀ j, j < i → ∀ b, labels.get? j = some b → rowMatchesVariant t b = false) ∧
    (∀ (t : String) (labels : List String),
      (∀ l ∈ labels, rowMatchesVariant t l = false) → matchVariant t labels = none) ∧
    matchVariant "Near Mint" ["Near Mint Foil"] = none := by
  refine ⟨?_, ?_, by decide⟩
  · intro t labels l h
    obtain ⟨hp, i, hi, hfirst⟩ := find?_first _ labels l h
    have hsplit : (containsFoil t == containsFoil l) = true ∧
        pyIn (stripFoil t) (stripFoil l) = true := by
      simpa [rowMatchesVariant, Bool.and_eq_true] using hp
    exact ⟨(beq_iff_eq.mp hsplit.1).symm, hsplit.2, i, hi, hfirst⟩
  · intro t labels hall
    simp only [matchVariant, List.find?_eq_none]
    intro x hx
    simp [hall x hx]

/-- Witness for C2 at the spec's own example: target "Near Mint Foil"
against rows ["Near Mint Foil - Direct", "Near Mint"] selects the
first, foil-matching row. -/
theorem variantMatcher_C2_witness :
    containsFoil "Near Mint Foil - Direct" = containsFoil "Near Mint Foil" ∧
    pyIn (stripFoil "Near Mint Foil") (stripFoil "Near Mint Foil - Direct") = true ∧
    ∃ i, (["Near Mint Foil - Direct", "Near Mint"] : List String).get? i =
        some "Near Mint Foil - Direct" ∧
      ∀ j, j < i → ∀ b,
        (["Near Mint Foil - Direct", "Near Mint"] : List String).get? j = some b →
          rowMatchesVariant "Near Mint Foil" b = false :=
  variantMatcher_C2.1 "Near Mint Foil" ["Near Mint Foil - Direct", "Near Mint"]
    "Near Mint Foil - Direct" (by decide)

/-- C6 counterexample: in `upload_cards.get_tcgplayer_id`, a 200
response whose payload lacks `tcgplayer_id` writes `null` into the
cache for that key, and a later attempt — even one whose fresh lookup
would succeed — is served the cached negative. -/
theorem scryfallCache_C6_counterexample :
    get_tcgplayer_id (ScryResp.ok none) "abc123" [] =
      (JVal.null, [("abc123", JVal.null)]) ∧
    get_tcgplayer_id (ScryResp.ok (some 42)) "abc123" [("abc123", JVal.null)] =
      (JVal.null, [("abc123", JVal.null)]) := by
  decide

/-- C6 amended: the reconcile resolver caches only successful
resolutions (its cache changes only when a present `tcgplayer_id` was
extracted on a cache miss, and then by exactly that entry), but the
upload resolver caches `null` whenever a 200 response lacks the field
on a cache miss. -/
theorem scryfallCache_C6_amended :
    (∀ (resp : ScryResp) (sid : String) (cache : Cache),
      (get_tcgplayer_id_from_scryfall resp sid cache).2 ≠ cache →
        ∃ tid, resp = ScryResp.ok (some tid) ∧ cacheLookup cache sid = none ∧
          (get_tcgplayer_id_from_scryfall resp sid cache).2 =
            cacheInsert cache sid (JVal.str (Nat.repr tid))) ∧
    (∀ (sid : String) (cache : Cache), cacheLookup cache sid = none →
      (get_tcgplayer_id (ScryResp.ok none) sid cache).2 = cacheInsert cache sid JVal.null) := by
  constructor
  · intro resp sid cache hne
    cases hcl : cacheLookup cache sid with
    | some v => exact absurd (by simp [get_tcgplayer_id_from_scryfall, hcl]) hne
    | none =>
      cases resp with
      | ok tidOpt =>
        cases tidOpt with
        | some tid =>
          exact ⟨tid, rfl, rfl, by simp [get_tcgplayer_id_from_scryfall, hcl]⟩
        | none => exact absurd (by simp [get_tcgplayer_id_from_scryfall, hcl]) hne
      | httpError => exact absurd (by simp [get_tcgplayer_id_from_scryfall, hcl]) hne
      | exn => exact absurd (by simp [get_tcgplayer_id_from_scryfall, hcl]) hne
  · intro sid cache hcl
    simp [get_tcgplayer_id, hcl]

/-- Witness for C6 amended: a fresh successful resolution of id 42 for
key "s7" extends the empty cache by exactly that entry. -/
theorem scryfallCache_C6_witness :
    ∃ tid, ScryResp.ok (some 42) = ScryResp.ok (some tid) ∧
      cacheLookup ([] : Cache) "s7" = none ∧
      (get_tcgplayer_id_from_scryfall (ScryResp.ok (some 42)) "s7" []).2 =
        cacheInsert [] "s7" (JVal.str (Nat.repr tid)) :=
  scryfallCache_C6_amended.1 (ScryResp.ok (some 42)) "s7" [] (by decide)

/-- Environment for the C7 counterexample: the Scryfall lookup fails,
the Pokemon API would resolve "777", the catalog search resolves
"999". -/
def chainEnv_C7 : ResolveEnv :=
  { scryfall := fun _ => none,
    pokemonApi := fun _ _ => some "777",
    catalogSearch := fun _ => some "999" }

/-- C7 counterexample: a record with a Scryfall id present and category
"Pokemon" whose Scryfall lookup fails goes straight to the catalog
search; the category API lookup is never invoked, although the claim
says it is the next strategy for such a record. -/
theorem resolveChain_C7_counterexample :
    resolvePid chainEnv_C7 none (some "sc1") "Pikachu" "Pokemon" "Base Set" =
      (some "999", [Strategy.scryfall, Strategy.catalogSearch]) ∧
    Strategy.pokemonApi ∉
      (resolvePid chainEnv_C7 none (some "sc1") "Pikachu" "Pokemon" "Base Set").2 := by
  decide

/-- C7 amended: with a Scryfall id present, a failed (swallowed)
external-id lookup falls through directly to the catalog-search
fallback, skipping the category API lookup regardless of category; a
successful external-id lookup wins immediately; the category API
strategy is never invoked when an external id is present. -/
theorem resolveChain_C7_amended (env : ResolveEnv) (sid name category setName : String) :
    (env.scryfall sid = none → name ≠ "" → name ≠ "Unknown" →
      resolvePid env none (some sid) name category setName =
        (env.catalogSearch name, [Strategy.scryfall, Strategy.catalogSearch])) ∧
    (∀ p, env.scryfall sid = some p →
      resolvePid env none (some sid) name category setName = (some p, [Strategy.scryfall])) ∧
    Strategy.pokemonApi ∉ (resolvePid env none (some sid) name category setName).2 := by
  refine ⟨?_, ?_, ?_⟩
  · intro hs hn hu
    simp [resolvePid, hs, bne_iff_ne, hn, hu]
  · intro p hs
    simp [resolvePid, hs]
  · cases hs : env.scryfall sid with
    | some p => simp [resolvePid, hs]
    | none =>
      by_cases hn : (name != "" && name != "Unknown") = true
      · simp [resolvePid, hs, hn]
      · rw [Bool.not_eq_true] at hn
        simp [resolvePid, hs, hn]

/-- Environment for the C7 witness: the Scryfall lookup succeeds. -/
def chainEnvW_C7 : ResolveEnv :=
  { scryfall := fun _ => some "555",
    pokemonApi := fun _ _ => none,
    catalogSearch := fun _ => none }

/-- Witness for C7 amended: a successful Scryfall lookup resolves
immediately with only that strategy invoked. -/
theorem resolveChain_C7_witness :
    resolvePid chainEnvW_C7 none (some "sid9") "Jace" "Magic" "MH2" =
      (some "555", [Strategy.scryfall]) :=
  (resolveChain_C7_amended chainEnvW_C7 "sid9" "Jace" "Magic" "MH2").2.1 "555" rfl

/-- C8 counterexample: a cache file whose JSON fails to parse makes
`load_cache` propagate the error (the run aborts); it does not fall
back to the empty cache. -/
theorem cacheLoad_C8_counterexample :
    load_cache (some (Except.error "Expecting value: line 1 column 1 (char 0)")) =
      Except.error "Expecting value: line 1 column 1 (char 0)" ∧
    load_cache (some (Except.error "Expecting value: line 1 column 1 (char 0)")) ≠
      Except.ok ([] : Cache) := by
  refine ⟨rfl, ?_⟩
  intro h
  exact Except.noConfusion h

/-- C8 amended: corruption of the progress or harvest file is caught at
resume time and the run falls back to a fresh (non-resumed) start, and
an absent cache file yields the empty cache; but a corrupted cache file
is not caught — `load_cache` propagates the parse error and the run
aborts. -/
theorem corruption_C8_amended :
    (∀ e : String, load_cache (some (Except.error e)) = Except.error e) ∧
    load_cache none = Except.ok [] ∧
    (∀ (e : String) (hr : Except String (List HarvestItem)),
      resumeInit (some (Except.error e)) (some hr) = freshOutcome) ∧
    (∀ (p : ProgressData) (e : String),
      resumeInit (some (Except.ok p)) (some (Except.error e)) = freshOutcome) ∧
    (∀ hr, resumeInit none hr = freshOutcome) := by
  refine ⟨fun e => rfl, rfl, ?_, fun p e => rfl, ?_⟩
  · intro e hr
    cases hr <;> rfl
  · intro hr
    cases hr <;> rfl

/-- The harvest list (current dict format) used for the C3 bug. -/
def dictHarvest_C3 : List HarvestItem :=
  [HarvestItem.dict "100" "Card A" "Set X" "Magic" "R" "1",
   HarvestItem.dict "200" "Card B" "Set X" "Magic" "C" "2"]

/-- C3: the claim matches the intended resume contract, but on the dict
harvest format the code itself writes, `last_id in product_ids`
compares a string against dicts and never succeeds, so resume restarts
at 0 even though the checkpoint id is the identifier of the record at
index 0 (start index 1 was due); the legacy string format behaves as
claimed. -/
theorem resume_C3_bug :
    harvestId (dictHarvest_C3.get ⟨0, by decide⟩) = "100" ∧
    (resumeInit (some (Except.ok ⟨"100", "report.csv"⟩))
        (some (Except.ok dictHarvest_C3))).startIndex = 0 ∧
    (resumeInit (some (Except.ok ⟨"100", "report.csv"⟩))
        (some (Except.ok [HarvestItem.strId "100", HarvestItem.strId "200"]))).startIndex = 1 := by
  decide

/-- C9: whenever the listed condition is "Near Mint" and both the
Near-Mint and Lightly-Played price keys of the same foil status are
present with the Lightly-Played price strictly higher, the anomaly is
flagged, and the interactive retarget prompt appears exactly in live
mode, never in dry-run. -/
theorem anomaly_C9 (dryRun userAccepts isFoil : Bool)
    (prices : List (String × ℚ)) (t0 : String) (nm lp : ℚ)
    (hnm : pyDictGet prices ("Near Mint" ++ (if isFoil then " Foil" else "")) = some nm)
    (hlp : pyDictGet prices ("Lightly Played" ++ (if isFoil then " Foil" else "")) = some lp)
    (hgt : lp > nm) :
    (anomalyCheck dryRun userAccepts "Near Mint" isFoil prices t0).flagged = true ∧
    ((anomalyCheck dryRun userAccepts "Near Mint" isFoil prices t0).promptShown = true ↔
      dryRun = false) := by
  cases dryRun <;> cases userAccepts <;>
    simp [anomalyCheck, hnm, hlp, hgt]

/-- Witness for C9 at the spec's example: condition "Near Mint",
non-foil, Near Mint priced 10 cents, Lightly Played 25 cents, in
dry-run: the anomaly is flagged and no prompt is shown. -/
theorem anomaly_C9_witness :
    (anomalyCheck true false "Near Mint" false
        [("Near Mint", (10 : ℚ)), ("Lightly Played", (25 : ℚ))] "Near Mint").flagged = true ∧
    ((anomalyCheck true false "Near Mint" false
        [("Near Mint", (10 : ℚ)), ("Lightly Played", (25 : ℚ))] "Near Mint").promptShown = true ↔
      true = false) :=
  anomaly_C9 true false false [("Near Mint", (10 : ℚ)), ("Lightly Played", (25 : ℚ))]
    "Near Mint" 10 25 (by decide) (by decide) (by decide)

/-- C5: in live mode, a matched reconcile row whose current quantity
differs from the target gets its quantity input filled with exactly
`str(targetQty)` (followed by the Match click when a button exists);
and in the upload flow the market-price Match control is clicked for
every readable row with current stock > 0 that has a Match button,
whether or not it is the target row. -/
theorem qtyAndPriceActions_C5 :
    (∀ (tq : Nat) (r : ReconRow), pyIntIfDigits r.qtyVal ≠ tq →
      (matchedRowStep false tq r).1 =
        PageAction.fillQty r.label (Nat.repr tq) ::
          (if r.matchBtnCount ≥ 1 then [PageAction.clickMatch r.label] else [])) ∧
    (∀ (t : String) (q : Nat) (r : UploadRow),
      r.labelOk = true → pyIntIfDigits r.qtyVal > 0 → r.matchBtnCount ≥ 1 →
      PageAction.clickMatch r.label ∈ (uploadRowStep false t q r).1) := by
  constructor
  · intro tq r h
    have hb : (pyIntIfDigits r.qtyVal != tq) = true := by simpa using h
    by_cases hm : r.matchBtnCount ≥ 1
    · simp [matchedRowStep, hb, hm]
    · simp [matchedRowStep, hb, hm]
  · intro t q r hok hq hm
    simp [uploadRowStep, hok, hq, hm]

/-- Witness for C5: a matched "Near Mint" row holding quantity 1
against target 3 gets filled with "3" and its Match button clicked; a
stocked non-target "Lightly Played" upload row gets its Match button
clicked. -/
theorem qtyAndPriceActions_C5_witness :
    (matchedRowStep false 3 ⟨"Near Mint", true, "1", 3⟩).1 =
      PageAction.fillQty "Near Mint" (Nat.repr 3) ::
        (if (3 : Nat) ≥ 1 then [PageAction.clickMatch "Near Mint"] else []) ∧
    PageAction.clickMatch "Lightly Played" ∈
      (uploadRowStep false "Near Mint" 2 ⟨"Lightly Played", true, "4", 3, 0⟩).1 :=
  ⟨qtyAndPriceActions_C5.1 3 ⟨"Near Mint", true, "1", 3⟩ (by decide),
   qtyAndPriceActions_C5.2 "Near Mint" 2 ⟨"Lightly Played", true, "4", 3, 0⟩ rfl
     (by decide) (by decide)⟩

/-- A product whose 3 navigation attempts all failed. -/
def navFailItem_C4 : SyncItem :=
  { meta := { pid := "100", name := "Card A", setName := "Set X", category := "Magic",
              rarity := "R", number := "1" },
    navOk := false, tableCheck := some true, rows := [], saveVisible := true, ts := "t1" }

/-- C4 counterexample: a record skipped after exhausting navigation
retries writes no progress checkpoint, so the checkpoint stays at the
previous record instead of advancing past the skipped one. -/
theorem progress_C4_counterexample :
    (processSyncItem false "rep.csv" navFailItem_C4).progressWrite = none ∧
    (runSync false "rep.csv" 0 [navFailItem_C4]
        (some ⟨"prev", "rep.csv", "t0"⟩)).progress = some ⟨"prev", "rep.csv", "t0"⟩ := by
  decide

/-- C4 amended: the checkpoint is overwritten with the record's id,
report path and timestamp after every record that reaches row
processing — however its rows fare — but records skipped for
navigation-retry exhaustion or a visibly absent table `continue` past
the progress write and do not advance the checkpoint. -/
theorem progress_C4_amended (dryRun : Bool) (rf : String) (item : SyncItem)
    (hnav : item.navOk = true) (htab : item.tableCheck ≠ some false) :
    (processSyncItem dryRun rf item).progressWrite = some ⟨item.meta.pid, rf, item.ts⟩ := by
  have htab2 : (item.tableCheck == some false) = false := by
    cases h : item.tableCheck with
    | none => rfl
    | some b =>
      cases b with
      | false => exact absurd h htab
      | true => rfl
  simp [processSyncItem, hnav, htab2]

/-- A product that navigates fine and shows no rows. -/
def okItem_C4 : SyncItem :=
  { meta := { pid := "200", name := "Card B", setName := "Set X", category := "Magic",
              rarity := "C", number := "2" },
    navOk := true, tableCheck := none, rows := [], saveVisible := false, ts := "t2" }

/-- Witness for C4 amended: a record that reaches row processing (even
with nothing to report) advances the checkpoint to its own id. -/
theorem progress_C4_witness :
    (processSyncItem true "r2.csv" okItem_C4).progressWrite =
      some ⟨"200", "r2.csv", "t2"⟩ :=
  progress_C4_amended true "r2.csv" okItem_C4 rfl (by decide)

/-- Helper: a single upload row step never clicks Save, and a step on a
non-target row never fills a quantity input. -/
theorem uploadRowStep_actions (d : Bool) (t : String) (q : Nat) (r : UploadRow) :
    PageAction.clickSave ∉ (uploadRowStep d t q r).1 ∧
    ((uploadRowStep d t q r).2 = false →
      ∀ lbl v, PageAction.fillQty lbl v ∉ (uploadRowStep d t q r).1) := by
  simp only [uploadRowStep]
  split_ifs with h1 h2 h3 h4 <;> simp_all

/-- Helper: the row loop of `reconcile_inventory.main` is the identity
on the accumulator when no row passes the variant test. -/
theorem reconLoop_no_match (d : Bool) (tv : String) (tq : Nat) :
    ∀ (rows : List ReconRow) (found : Bool),
      (∀ r ∈ rows, rowMatchesVariant tv r.label = false) →
      reconLoop d tv tq rows found = ([], false, found) := by
  intro rows
  induction rows with
  | nil => intro found _; rfl
  | cons r rest ih =>
    intro found h
    have hr : rowMatchesVariant tv r.label = false := h r (by simp)
    simp only [reconLoop, hr, Bool.false_eq_true, if_false]
    exact ih found (fun x hx => h x (List.mem_cons_of_mem _ hx))

/-- Helper: when the target row is absent, `uploadFinish` warns, fills
no quantity input, and clicks no Save. -/
theorem uploadFinish_not_found (d : Bool) (a : AnomalyOutcome) (q : Nat)
    (rows : List UploadRow) (sv : Bool)
    (h : (uploadFinish d a q rows sv).targetFound = false) :
    (uploadFinish d a q rows sv).warnedNoRow = true ∧
    (∀ lbl v, PageAction.fillQty lbl v ∉ (uploadFinish d a q rows sv).actions) ∧
    PageAction.clickSave ∉ (uploadFinish d a q rows sv).actions := by
  by_cases hf : (rows.map (uploadRowStep d a.targetText q)).any (·.2) = true
  · exfalso
    simp [uploadFinish, hf] at h
  · rw [Bool.not_eq_true] at hf
    have hall : ∀ rr ∈ rows, (uploadRowStep d a.targetText q rr).2 = false := by
      intro rr hrr
      have := List.any_eq_false.mp hf (uploadRowStep d a.targetText q rr)
        (List.mem_map_of_mem _ hrr)
      simpa using this
    have hactions : (uploadFinish d a q rows sv).actions =
        ((rows.map (uploadRowStep d a.targetText q)).map (·.1)).flatten := by
      simp [uploadFinish, hf]
    have hwarn : (uploadFinish d a q rows sv).warnedNoRow = true := by
      simp [uploadFinish, hf]
    refine ⟨hwarn, ?_, ?_⟩
    · intro lbl v hmem
      rw [hactions] at hmem
      simp only [List.mem_flatten, List.mem_map] at hmem
      obtain ⟨l, ⟨s, ⟨rr, hrr, hs⟩, hl⟩, hmem⟩ := hmem
      subst hs hl
      exact (uploadRowStep_actions d a.targetText q rr).2 (hall rr hrr) lbl v hmem
    · intro hmem
      rw [hactions] at hmem
      simp only [List.mem_flatten, List.mem_map] at hmem
      obtain ⟨l, ⟨s, ⟨rr, hrr, hs⟩, hl⟩, hmem⟩ := hmem
      subst hs hl
      exact (uploadRowStep_actions d a.targetText q rr).1 hmem

/-- A stocked non-target row with a Match button. -/
def stockedRow_C10 : UploadRow :=
  { label := "Lightly Played", labelOk := true, qtyVal := "2", matchBtnCount := 3,
    priceVal := 0 }

/-- C10 counterexample: in the live upload flow, when the target "Near
Mint" row is absent, the warning fires and no Save happens, but a
market-price Match click on the stocked "Lightly Played" row has
already been performed — a page mutation, contradicting "no mutation is
performed on the page for that record". -/
theorem rowAbsent_C10_counterexample :
    (process_card false false "near_mint" "" 1 [stockedRow_C10] true).warnedNoRow = true ∧
    (process_card false false "near_mint" "" 1 [stockedRow_C10] true).actions =
      [PageAction.clickMatch "Lightly Played"] := by
  decide

/-- C10 amended: an absent target variant row is non-fatal: in the
reconcile flow a warning is logged, no page action at all is emitted
for the record, and the batch maps over every record regardless; in the
upload flow a warning is logged, no quantity fill and no Save occur —
but market-price Match clicks on rows with stock may already have been
performed before the absence is detected. -/
theorem rowAbsent_C10_amended :
    (∀ (d : Bool) (env : ResolveEnv) (rcd : ReconRecord) (p : String),
      (resolvePid env rcd.pidField rcd.scryId rcd.name rcd.category rcd.setName).1 = some p →
      rcd.navOk = true →
      (∀ r ∈ rcd.rows, rowMatchesVariant rcd.variant r.label = false) →
      (processReconRecord d env rcd).actions = [] ∧
        (processReconRecord d env rcd).warnedNoRow = true) ∧
    (∀ (d : Bool) (env : ResolveEnv) (records : List ReconRecord),
      (runRecon d env records).length = records.length) ∧
    (∀ (d ua : Bool) (cr fr : String) (q : Nat) (rows : List UploadRow) (sv : Bool),
      (process_card d ua cr fr q rows sv).targetFound = false →
      (process_card d ua cr fr q rows sv).warnedNoRow = true ∧
        (∀ lbl v, PageAction.fillQty lbl v ∉ (process_card d ua cr fr q rows sv).actions) ∧
        PageAction.clickSave ∉ (process_card d ua cr fr q rows sv).actions) := by
  refine ⟨?_, ?_, ?_⟩
  · intro d env rcd p hres hnav hall
    have hloop := reconLoop_no_match d rcd.variant rcd.targetQty rcd.rows false hall
    constructor <;> simp [processReconRecord, hres, hnav, hloop]
  · intro d env records
    simp [runRecon]
  · intro d ua cr fr q rows sv hfound
    exact uploadFinish_not_found d _ q rows sv hfound

/-- Witness for C10 amended, reconcile side: a record whose single page
row is "Damaged" while the target is "Near Mint" emits no action and
warns. -/
theorem rowAbsent_C10_witness :
    (processReconRecord false chainEnvW_C7
      { pidField := some "42", scryId := none, name := "Card", category := "Magic",
        setName := "S", targetQty := 3, variant := "Near Mint",
        rows := [⟨"Damaged", true, "1", 3⟩], saveVisible := true, navOk := true }).actions = [] ∧
    (processReconRecord false chainEnvW_C7
      { pidField := some "42", scryId := none, name := "Card", category := "Magic",
        setName := "S", targetQty := 3, variant := "Near Mint",
        rows := [⟨"Damaged", true, "1", 3⟩], saveVisible := true, navOk := true }).warnedNoRow
      = true :=
  rowAbsent_C10_amended.1 false chainEnvW_C7
    { pidField := some "42", scryId := none, name := "Card", category := "Magic",
      setName := "S", targetQty := 3, variant := "Near Mint",
      rows := [⟨"Damaged", true, "1", 3⟩], saveVisible := true, navOk := true }
    "42" rfl rfl (by decide)

/-! ## C1 helper lemmas: dry-run purity -/

/-- Helper: in dry-run mode the matched-row step mutates nothing. -/
theorem matchedRowStep_dry (tq : Nat) (r : ReconRow) :
    matchedRowStep true tq r = ([], false) := by
  simp [matchedRowStep]

/-- Helper: in dry-run mode the reconcile row loop emits no action and
reports no change. -/
theorem reconLoop_dry (tv : String) (tq : Nat) :
    ∀ (rows : List ReconRow) (found : Bool),
      (reconLoop true tv tq rows found).1 = [] ∧
      (reconLoop true tv tq rows found).2.1 = false := by
  intro rows
  induction rows with
  | nil => intro found; exact ⟨rfl, rfl⟩
  | cons r rest ih =>
    intro found
    by_cases hm : rowMatchesVariant tv r.label = true
    · by_cases hi : r.hasInput = true
      · simp [reconLoop, hm, hi, matchedRowStep_dry]
      · rw [Bool.not_eq_true] at hi
        simp only [reconLoop, hm, if_true, hi, Bool.false_eq_true, if_false]
        exact ih true
    · rw [Bool.not_eq_true] at hm
      simp only [reconLoop, hm, Bool.false_eq_true, if_false]
      exact ih found

/-- Helper: in dry-run mode a reconcile record emits no page action. -/
theorem processReconRecord_dryActions (env : ResolveEnv) (rcd : ReconRecord) :
    (processReconRecord true env rcd).actions = [] := by
  cases hres : (resolvePid env rcd.pidField rcd.scryId rcd.name rcd.category rcd.setName).1 with
  | none => simp [processReconRecord, hres]
  | some p =>
    cases hnav : rcd.navOk with
    | false => simp [processReconRecord, hres, hnav]
    | true =>
      have hloop := reconLoop_dry rcd.variant rcd.targetQty rcd.rows false
      simp [processReconRecord, hres, hnav, hloop.1, hloop.2]

/-- Helper: in dry-run mode a sync row emits no action and any report
row it produces carries the dry-run status. -/
theorem processSyncRow_dry (meta : SyncMeta) (r : SyncRow) :
    (processSyncRow true meta r).2 = [] ∧
    ∀ row, (processSyncRow true meta r).1 = some row → row.status = RowStatus.dryRun := by
  simp only [processSyncRow]
  split_ifs <;> simp_all

/-- Helper: in dry-run mode a sync row's outcome does not depend on the
post-click price observation. -/
theorem processSyncRow_erase (meta : SyncMeta) (r : SyncRow) :
    processSyncRow true meta (eraseSyncRow r) = processSyncRow true meta r := rfl

/-- Helper: flattening a list of empty lists gives the empty list. -/
theorem flatten_eq_nil_of_all_nil {α : Type} :
    ∀ (L : List (List α)), (∀ l ∈ L, l = []) → L.flatten = []
  | [], _ => rfl
  | l :: L, h => by
    have h0 : l = [] := h l (by simp)
    simp only [List.flatten_cons, h0, List.nil_append]
    exact flatten_eq_nil_of_all_nil L (fun x hx => h x (List.mem_cons_of_mem _ hx))

/-- Helper: in dry-run mode a sync product emits no action and all its
report rows carry the dry-run status. -/
theorem processSyncItem_dry (rf : String) (item : SyncItem) :
    (processSyncItem true rf item).actions = [] ∧
    ∀ row ∈ (processSyncItem true rf item).report, row.status = RowStatus.dryRun := by
  by_cases hnav : (!item.navOk) = true
  · simp [processSyncItem, hnav]
  · by_cases htab : (item.tableCheck == some false) = true
    · simp [processSyncItem, hnav, htab]
    · have hacts : ((item.rows.map (processSyncRow true item.meta)).map (·.2)).flatten = [] := by
        apply flatten_eq_nil_of_all_nil
        intro l hl
        rw [List.map_map] at hl
        simp only [List.mem_map] at hl
        obtain ⟨r, _, hl⟩ := hl
        rw [← hl]
        exact (processSyncRow_dry item.meta r).1
      constructor
      · simp only [processSyncItem, hnav, htab]
        simp only [Bool.false_eq_true, if_false, hacts]
        simp
      · intro row hrow
        simp only [processSyncItem, hnav, htab] at hrow
        simp only [Bool.false_eq_true, if_false, List.mem_filterMap, List.mem_map] at hrow
        obtain ⟨s, ⟨r, _, hs⟩, hrow⟩ := hrow
        subst hs
        exact (processSyncRow_dry item.meta r).2 row hrow

/-- Helper: in dry-run mode a sync product's whole outcome does not
depend on post-click price observations. -/
theorem processSyncItem_erase (rf : String) (item : SyncItem) :
    processSyncItem true rf (eraseSyncItem item) = processSyncItem true rf item := by
  have hrows : (item.rows.map eraseSyncRow).map (processSyncRow true item.meta) =
      item.rows.map (processSyncRow true item.meta) := by
    rw [List.map_map]
    exact List.map_congr_left (fun r _ => processSyncRow_erase item.meta r)
  simp only [processSyncItem, eraseSyncItem]
  simp only [hrows]

/-- Helper: two dry-run phase-2 runs over inputs that agree on
everything except post-click price observations coincide entirely. -/
theorem runSyncFrom_erase (rf : String) :
    ∀ (items1 items2 : List SyncItem) (p0 : Option ProgressState),
      items1.map eraseSyncItem = items2.map eraseSyncItem →
      runSyncFrom true rf items1 p0 = runSyncFrom true rf items2 p0 := by
  intro items1
  induction items1 with
  | nil =>
    intro items2 p0 h
    cases items2 with
    | nil => rfl
    | cons b bs => simp at h
  | cons a as ih =>
    intro items2 p0 h
    cases items2 with
    | nil => simp at h
    | cons b bs =>
      simp only [List.map_cons, List.cons.injEq] at h
      have hab : processSyncItem true rf a = processSyncItem true rf b := by
        rw [← processSyncItem_erase rf a, ← processSyncItem_erase rf b, h.1]
      simp only [runSyncFrom, hab]
      rw [ih bs _ h.2]

/-- Helper: a dry-run phase-2 run emits no action and all its report
rows carry the dry-run status. -/
theorem runSyncFrom_dry (rf : String) :
    ∀ (items : List SyncItem) (p0 : Option ProgressState),
      (runSyncFrom true rf items p0).actions = [] ∧
      ∀ row ∈ (runSyncFrom true rf items p0).report, row.status = RowStatus.dryRun := by
  intro items
  induction items with
  | nil => intro p0; exact ⟨rfl, by intro row h; simp [runSyncFrom] at h⟩
  | cons item rest ih =>
    intro p0
    constructor
    · simp only [runSyncFrom]
      rw [(processSyncItem_dry rf item).1]
      simp only [List.nil_append]
      exact (ih _).1
    · intro row hrow
      simp only [runSyncFrom, List.mem_append] at hrow
      rcases hrow with hrow | hrow
      · exact (processSyncItem_dry rf item).2 row hrow
      · exact (ih _).2 row hrow

/-- C1: a dry-run of the sync engine performs no page action (no
quantity fill, no Match click, no Save), every report row it writes
carries the dry-run status, and two dry-run runs over the same inputs —
even when the second run's page reports different post-click prices,
the only observation a live mutation could change — produce identical
reports; the reconcile engine likewise emits no page action in
dry-run. -/
theorem dryRun_C1 :
    (∀ (rf : String) (k : Nat) (items : List SyncItem) (p0 : Option ProgressState),
      (runSync true rf k items p0).actions = [] ∧
      ∀ row ∈ (runSync true rf k items p0).report, row.status = RowStatus.dryRun) ∧
    (∀ (rf : String) (k : Nat) (p0 : Option ProgressState) (items1 items2 : List SyncItem),
      items1.map eraseSyncItem = items2.map eraseSyncItem →
      (runSync true rf k items1 p0).report = (runSync true rf k items2 p0).report) ∧
    (∀ (env : ResolveEnv) (records : List ReconRecord) (res : ReconResult),
      res ∈ runRecon true env records → res.actions = []) := by
  refine ⟨?_, ?_, ?_⟩
  · intro rf k items p0
    exact runSyncFrom_dry rf (items.drop k) p0
  · intro rf k p0 items1 items2 h
    have hdrop : (items1.drop k).map eraseSyncItem = (items2.drop k).map eraseSyncItem := by
      rw [List.map_drop, List.map_drop, h]
    unfold runSync
    rw [runSyncFrom_erase rf (items1.drop k) (items2.drop k) p0 hdrop]
  · intro env records res hres
    simp only [runRecon, List.mem_map] at hres
    obtain ⟨rcd, _, hres⟩ := hres
    subst hres
    exact processReconRecord_dryActions env rcd

/-- A concrete reportable row for the C1 witness. -/
def demoRow_C1 : SyncRow :=
  { variantName := "Near Mint", hasInput := true, inputVisible := true, qtyVal := "2",
    matchBtnCount := 3, priceVisible := true, oldPriceVal := "$1.00",
    postClickPriceVal := "$1.25" }

/-- A concrete product for the C1 witness. -/
def demoItem_C1 : SyncItem :=
  { meta := { pid := "300", name := "Card C", setName := "Set Y", category := "Pokemon",
              rarity := "R", number := "7" },
    navOk := true, tableCheck := some true, rows := [demoRow_C1], saveVisible := true,
    ts := "t3" }

/-- The same product as seen by a second run whose page would report a
different post-click price — the only observation live mode could have
changed. -/
def demoItem2_C1 : SyncItem :=
  { demoItem_C1 with rows := [{ demoRow_C1 with postClickPriceVal := "$9.99" }] }

/-- Witness for C1: the two dry-run reports over the same inputs
coincide even though the post-click price observations differ. -/
theorem dryRun_C1_witness :
    (runSync true "r.csv" 0 [demoItem_C1] none).report =
      (runSync true "r.csv" 0 [demoItem2_C1] none).report :=
  dryRun_C1.2.1 "r.csv" 0 none [demoItem_C1] [demoItem2_C1] (by decide)
